import Mathlib

/-
Verification of the `doctor` health-check core (Go), shallowly embedded in
Lean 4.  The embedding follows the source file line by line:

* `healthStatus.status` is a Go `uint64`; we model it as a `Nat` that is kept
  below `2^64`, with Go's shift semantics made explicit (`1 << pos` on a
  `uint64` is `0` for `pos ≥ 64`, which coincides with `(1 <<< pos) % 2^64`).
* the registry map `map[string]*healthCheckStatus` is modelled as an
  association list with Go-map insert semantics (overwrite on key collision,
  append otherwise); iteration order is irrelevant to every property proved.
* goroutine spawns (`go check.start(...)`) are recorded in a ghost log
  `runners`, since a spawned runner is never stopped by registration code.
* Go errors are modelled as `Option String` (`none` = `nil`,
  `some s` = an error whose `Error()` text is `s`); a Go panic is modelled
  with the `Except` monad (the code contains no `recover`, so a panic
  propagates through the goroutine body).
* time is modelled discretely (`Nat` instants); the runner's wait
  `<-subctx.Done()` resolves at the earlier of the timeout and the handler
  goroutine's completion (its deferred `cancel()`).
-/

/-- Word width of the aggregator bitmask (`status uint64`). -/
def maskWidth : Nat := 64

/-- Go's `1 << pos` evaluated on `uint64`: zero once `pos ≥ 64`. -/
def goShl1 (pos : Nat) : Nat := (1 <<< pos) % 2 ^ maskWidth

/-- `update` (lines 140-148): on the aggregator bitmask, `!value` sets bit
`pos` (`status |= 1 << pos`), `value` clears it
(`status &= ^(1 << pos)`, i.e. AND with the 64-bit complement). -/
def update (status : Nat) (pos : Nat) (value : Bool) : Nat :=
  if !value then
    status ||| goShl1 pos
  else
    status &&& ((2 ^ maskWidth - 1) ^^^ goShl1 pos)

/-- The immutable part of a check (`Check` struct).  The `Handler` and
`Aspect` function fields are supplied separately to the runner model, since
they are Go closures; the registration path never calls them. -/
structure Check where
  Name : String
  Interval : Nat
  Timeout : Nat
  deriving Repr, DecidableEq

/-- `healthCheckStatus`: the per-check mutable state wrapping its `Check`. -/
structure HealthCheckStatus where
  check : Check
  healthy : Bool
  msg : String
  pos : Nat
  deriving Repr, DecidableEq

/-- Go-map lookup on the association list modelling `checks.items`. -/
def mapLookup (k : String) : List (String × HealthCheckStatus) → Option HealthCheckStatus
  | [] => none
  | (k', v) :: rest => if k' = k then some v else mapLookup k rest

/-- Go-map insert: overwrite the entry with the same key, or append. -/
def mapInsert (k : String) (v : HealthCheckStatus) :
    List (String × HealthCheckStatus) → List (String × HealthCheckStatus)
  | [] => [(k, v)]
  | (k', v') :: rest => if k' = k then (k, v) :: rest else (k', v') :: mapInsert k v rest

/-- The `Doctor` value: registry map, aggregator bitmask, and a ghost log of
every runner goroutine spawned by `go check.start(ctx, health.status)`
(a spawned runner is never stopped by the registration code). -/
structure DoctorState where
  items : List (String × HealthCheckStatus)
  status : Nat
  runners : List (String × Nat)
  deriving Repr, DecidableEq

/-- `NewDoctor` (lines 64-69): empty map, zero bitmask. -/
def NewDoctor : DoctorState :=
  { items := [], status := 0, runners := [] }

/-- The error message of the capacity branch (line 88), verbatim. -/
def capacityErrMsg : String := "health-check treshold (64) exceeded"

/-- The bound used by the enforcement check `pos < 63` (line 77). -/
def capacityBound : Nat := 63

/-- `Investigate` (lines 73-91): under the registry lock, take
`pos := len(items)`; if `pos < 63`, build a `healthCheckStatus` with
`healthy=false`, `msg="[n/a]"`, insert it under the check's name, set the
aggregator bit (`status.update(pos, false)`), and spawn the runner;
otherwise return the threshold error and change nothing. -/
def Investigate (d : DoctorState) (healthCheck : Check) : Except String DoctorState :=
  let pos := d.items.length
  if pos < capacityBound then
    let check : HealthCheckStatus :=
      { check := healthCheck, healthy := false, msg := "[n/a]", pos := pos }
    .ok { items := mapInsert healthCheck.Name check d.items,
          status := update d.status pos false,
          runners := d.runners ++ [(healthCheck.Name, pos)] }
  else
    .error capacityErrMsg

/-- `Healthy` (lines 94-98): the aggregate signal is `status == 0`. -/
def Healthy (d : DoctorState) : Bool := d.status == 0

/-- `failing` (lines 177-189): collect `(name, msg)` for every entry of the
registry whose message is non-empty (`len(hc.msg) > 0`). -/
def failing (items : List (String × HealthCheckStatus)) : List (String × String) :=
  (items.filter (fun p => 0 < p.2.msg.length)).map (fun p => (p.1, p.2.msg))

/-- Sequential registration of a list of checks, stopping at the first
error (used to state properties about N registrations in call order). -/
def investigateAll (d : DoctorState) : List Check → Except String DoctorState
  | [] => .ok d
  | c :: rest =>
    match Investigate d c with
    | .ok d' => investigateAll d' rest
    | .error e => .error e

/-- A batch of `n` distinct-named checks `c0, c1, ...`. -/
def mkChecks (n : Nat) : List Check :=
  (List.range n).map (fun i => { Name := "c" ++ toString i, Interval := 1, Timeout := 1 })

/- ------------------------------------------------------------------ -/
/- The runner (`start`, lines 102-137).                                -/
/- ------------------------------------------------------------------ -/

/-- The mutable per-check fields touched by a runner cycle, plus the
check's assigned bit position. -/
structure RunnerState where
  healthy : Bool
  msg : String
  pos : Nat
  deriving Repr, DecidableEq

/-- Lines 108-110: `if hc.Aspect != nil { err = hc.Aspect(hc.Check, err) }`.
The aspect is `none` when the Go field is `nil`. -/
def applyAspect (aspect : Option (Option String → Option String))
    (err : Option String) : Option String :=
  match aspect with
  | none => err
  | some f => f err

/-- Lines 111-121: under the check's lock, record the (aspect-transformed)
result `err` into the check state and the aggregator.  `nil` clears the bit,
sets `healthy=true` and empties the message; an error sets the bit, sets
`healthy=false` and stores `err.Error()`. -/
def record (rs : RunnerState) (status : Nat) (err : Option String) :
    RunnerState × Nat :=
  match err with
  | none => ({ rs with healthy := true, msg := "" }, update status rs.pos true)
  | some s => ({ rs with healthy := false, msg := s }, update status rs.pos false)

/-- The body of the per-cycle goroutine (lines 105-123), in the Go exception
monad: `handler` is the invocation `hc.Handler(subctx)`, whose outcome is
either `.ok err` (it returned the Go error `err`) or `.error p` (it
panicked with message `p`).  The code contains no `recover`, so a panic
flows through the monadic bind and escapes the goroutine body; only a
normal return reaches the aspect and the recording code. -/
def goroutineBody (aspect : Option (Option String → Option String))
    (rs : RunnerState) (status : Nat)
    (handler : Except String (Option String)) :
    Except String (RunnerState × Nat) := do
  let err ← handler
  let err' := applyAspect aspect err
  pure (record rs status err')

/-- Line 124 (`<-subctx.Done()`): the instant at which the runner's loop
proceeds past one `check()` call.  `subctx` is cancelled at the earlier of
the check's timeout and the handler goroutine's completion (its deferred
`cancel()`); `handlerTime = none` models a handler that never returns. -/
def proceedTime (timeout : Nat) (handlerTime : Option Nat) : Nat :=
  match handlerTime with
  | none => timeout
  | some t => min t timeout

/-- The check state and aggregator as observed at the instant the timeout
expires while the handler has not yet returned: the recording code
(lines 111-121) runs only after `hc.Handler` returns, so nothing has been
written and both are exactly as they were when the cycle started. -/
def stateAtTimeout (rs : RunnerState) (status : Nat) : RunnerState × Nat :=
  (rs, status)

/- ------------------------------------------------------------------ -/
/- Supporting lemmas about the bitmask.                                -/
/- ------------------------------------------------------------------ -/

lemma goShl1_eq {p : Nat} (hp : p < maskWidth) : goShl1 p = 2 ^ p := by
  unfold goShl1
  rw [Nat.one_shiftLeft]
  exact Nat.mod_eq_of_lt (Nat.pow_lt_pow_right (by norm_num) hp)

lemma goShl1_lt (p : Nat) : goShl1 p < 2 ^ maskWidth :=
  Nat.mod_lt _ (Nat.two_pow_pos maskWidth)

lemma update_lt {st : Nat} (hst : st < 2 ^ maskWidth) (p : Nat) (v : Bool) :
    update st p v < 2 ^ maskWidth := by
  unfold update
  cases v with
  | false => simpa using Nat.or_lt_two_pow hst (goShl1_lt p)
  | true => simpa using Nat.lt_of_le_of_lt Nat.and_le_left hst

lemma testBit_clearMask {p : Nat} (q : Nat) (hp : p < maskWidth) :
    Nat.testBit ((2 ^ maskWidth - 1) ^^^ goShl1 p) q =
      (decide (q < maskWidth) ^^ decide (p = q)) := by
  rw [goShl1_eq hp, Nat.testBit_xor, Nat.testBit_two_pow_sub_one, Nat.testBit_two_pow]

lemma testBit_update_self {st p : Nat} (hp : p < maskWidth) (v : Bool) :
    Nat.testBit (update st p v) p = !v := by
  unfold update
  cases v with
  | false => simp [Nat.testBit_or, goShl1_eq hp, Nat.testBit_two_pow_self]
  | true => simp [Nat.testBit_and, testBit_clearMask p hp, hp]

lemma testBit_update_other {st p q : Nat} (hst : st < 2 ^ maskWidth)
    (hp : p < maskWidth) (hq : q ≠ p) (v : Bool) :
    Nat.testBit (update st p v) q = Nat.testBit st q := by
  have hq' : p ≠ q := fun h => hq h.symm
  by_cases hqw : q < maskWidth
  · unfold update
    cases v with
    | false => simp [Nat.testBit_or, goShl1_eq hp, Nat.testBit_two_pow_of_ne hq']
    | true => simp [Nat.testBit_and, testBit_clearMask q hp, hqw, hq']
  · have hle : 2 ^ maskWidth ≤ 2 ^ q :=
      Nat.pow_le_pow_right (by norm_num) (Nat.le_of_not_lt hqw)
    have h1 : Nat.testBit st q = false :=
      Nat.testBit_lt_two_pow (Nat.lt_of_lt_of_le hst hle)
    have h2 : Nat.testBit (update st p v) q = false :=
      Nat.testBit_lt_two_pow (Nat.lt_of_lt_of_le (update_lt hst p v) hle)
    rw [h1, h2]

/- ------------------------------------------------------------------ -/
/- Claim theorems.                                                     -/
/- ------------------------------------------------------------------ -/

/-- Claim C4: for every state of the aggregator, `Healthy()` returns true
if and only if the aggregate bitmask equals exactly zero. -/
theorem C4_healthy_iff_zero (d : DoctorState) : Healthy d = true ↔ d.status = 0 := by
  simp [Healthy]

/-- Claim C5: `update(p, v)` sets bit `p` when `v` is false and clears it
when `v` is true, and every bit other than `p` is unchanged, so toggling
one check's result flips only that check's bit. -/
theorem C5_update_frame (st p : Nat) (v : Bool)
    (hst : st < 2 ^ maskWidth) (hp : p < maskWidth) :
    Nat.testBit (update st p v) p = !v ∧
    ∀ q, q ≠ p → Nat.testBit (update st p v) q = Nat.testBit st q :=
  ⟨testBit_update_self hp v, fun _ hq => testBit_update_other hst hp hq v⟩

/-- Witness for C5 at the concrete input `st = 5`, `p = 1`, `v = false`. -/
theorem C5_update_frame_witness :
    (5 < 2 ^ maskWidth ∧ 1 < maskWidth) ∧
      (Nat.testBit (update 5 1 false) 1 = !false ∧
       ∀ q, q ≠ 1 → Nat.testBit (update 5 1 false) q = Nat.testBit 5 q) :=
  ⟨⟨by norm_num [maskWidth], by norm_num [maskWidth]⟩,
   C5_update_frame 5 1 false (by norm_num [maskWidth]) (by norm_num [maskWidth])⟩

/-- Claim C6: the recorded result is the aspect's output: a `nil` (transformed)
result clears the check's aggregator bit, sets `healthy=true` and empties the
message; an error sets the bit, sets `healthy=false` and stores exactly the
error's text. -/
theorem C6_record_result (aspect : Option (Option String → Option String))
    (rs : RunnerState) (st : Nat) (raw err : Option String)
    (he : applyAspect aspect raw = err) (hp : rs.pos < maskWidth) :
    goroutineBody aspect rs st (.ok raw) = .ok (record rs st err) ∧
    (err = none →
      record rs st err = ({ rs with healthy := true, msg := "" }, update st rs.pos true) ∧
      Nat.testBit (record rs st err).2 rs.pos = false) ∧
    (∀ s, err = some s →
      record rs st err = ({ rs with healthy := false, msg := s }, update st rs.pos false) ∧
      Nat.testBit (record rs st err).2 rs.pos = true) := by
  subst he
  refine ⟨rfl, ?_, ?_⟩
  · intro h
    rw [h]
    exact ⟨rfl, by simpa using testBit_update_self hp true⟩
  · intro s h
    rw [h]
    exact ⟨rfl, by simpa using testBit_update_self hp false⟩

/-- Witness for C6: an aspect that converts the raw error "boom" into
success; its output, not the raw result, determines the recorded state. -/
theorem C6_record_result_witness :
    (applyAspect (some (fun _ => none)) (some "boom") = none ∧
       RunnerState.pos ⟨false, "[n/a]", 0⟩ < maskWidth) ∧
    (goroutineBody (some (fun _ => none)) ⟨false, "[n/a]", 0⟩ 1 (.ok (some "boom")) =
        .ok (record ⟨false, "[n/a]", 0⟩ 1 none) ∧
     ((none : Option String) = none →
       record ⟨false, "[n/a]", 0⟩ 1 none =
         ({ RunnerState.mk false "[n/a]" 0 with healthy := true, msg := "" },
          update 1 (RunnerState.pos ⟨false, "[n/a]", 0⟩) true) ∧
       Nat.testBit (record ⟨false, "[n/a]", 0⟩ 1 none).2
         (RunnerState.pos ⟨false, "[n/a]", 0⟩) = false) ∧
     (∀ s, (none : Option String) = some s →
       record ⟨false, "[n/a]", 0⟩ 1 none =
         ({ RunnerState.mk false "[n/a]" 0 with healthy := false, msg := s },
          update 1 (RunnerState.pos ⟨false, "[n/a]", 0⟩) false) ∧
       Nat.testBit (record ⟨false, "[n/a]", 0⟩ 1 none).2
         (RunnerState.pos ⟨false, "[n/a]", 0⟩) = true)) :=
  ⟨⟨rfl, by norm_num [maskWidth]⟩,
   C6_record_result (some (fun _ => none)) ⟨false, "[n/a]", 0⟩ 1 (some "boom") none
     rfl (by norm_num [maskWidth])⟩

/-- Claim C9 is refuted by the code: the goroutine body invokes the handler
with no recover at the boundary, so a panic propagates out of the body
(crashing the program) instead of being converted into a failing result; no
state is recorded. -/
theorem C9_panic_escapes :
    (∀ aspect rs st p, goroutineBody aspect rs st (.error p) = .error p) ∧
    goroutineBody none ⟨true, "", 0⟩ 0 (.error "handler panicked") =
      .error "handler panicked" :=
  ⟨fun _ _ _ _ => rfl, rfl⟩

/-- Claim C2 counterexample: a check at position 0 whose handler succeeds in
its first cycle (bit cleared) and then hangs forever in the second cycle is
NOT marked failing at the second cycle's timeout expiry: the recording code
runs only after the handler returns, so the bit is still clear then. -/
theorem C2_timeout_counterexample :
    proceedTime 5 none = 5 ∧
    ¬ Nat.testBit (stateAtTimeout
        (record ⟨false, "[n/a]", 0⟩ (update 0 0 false) none).1
        (record ⟨false, "[n/a]", 0⟩ (update 0 0 false) none).2).2 0 = true := by
  decide

/-- Claim C2, amended: with a handler that never returns, the runner's loop
proceeds exactly at timeout expiry (and never later than the timeout for any
handler), but nothing is recorded at that instant: the check state and the
aggregator bit keep exactly the values they had when the cycle started. -/
theorem C2_timeout_amended (timeout : Nat) (rs : RunnerState) (st : Nat) :
    proceedTime timeout none = timeout ∧
    (∀ t, proceedTime timeout (some t) ≤ timeout) ∧
    stateAtTimeout rs st = (rs, st) ∧
    Nat.testBit (stateAtTimeout rs st).2 rs.pos = Nat.testBit st rs.pos :=
  ⟨rfl, fun t => Nat.min_le_right t timeout, rfl, rfl⟩

lemma mapLookup_mapInsert_self (k : String) (v : HealthCheckStatus) :
    ∀ l, mapLookup k (mapInsert k v l) = some v
  | [] => by simp [mapInsert, mapLookup]
  | (k', v') :: rest => by
    by_cases h : k' = k
    · simp [mapInsert, mapLookup, h]
    · simp [mapInsert, mapLookup, h, mapLookup_mapInsert_self k v rest]

lemma cap_lt_width : capacityBound < maskWidth := by norm_num [capacityBound, maskWidth]

/-- Claim C3: immediately after a successful registration, the new check's
state is `healthy=false`, `msg="[n/a]"` at position `len(items)`, its
aggregator bit is set, and the aggregate signal reports unhealthy. -/
theorem C3_fresh_unhealthy (d : DoctorState) (c : Check)
    (h : d.items.length < capacityBound) :
    ∃ d', Investigate d c = .ok d' ∧
      mapLookup c.Name d'.items =
        some { check := c, healthy := false, msg := "[n/a]", pos := d.items.length } ∧
      Nat.testBit d'.status d.items.length = true ∧
      Healthy d' = false := by
  have hp : d.items.length < maskWidth := Nat.lt_trans h cap_lt_width
  have hbit : Nat.testBit (update d.status d.items.length false) d.items.length = true := by
    simpa using testBit_update_self hp false
  have hInv : Investigate d c = .ok
      { items := mapInsert c.Name ⟨c, false, "[n/a]", d.items.length⟩ d.items,
        status := update d.status d.items.length false,
        runners := d.runners ++ [(c.Name, d.items.length)] } := by
    simp [Investigate, h]
  refine ⟨_, hInv, mapLookup_mapInsert_self _ _ _, hbit, ?_⟩
  have hne : update d.status d.items.length false ≠ 0 := by
    intro h0
    rw [h0, Nat.zero_testBit] at hbit
    exact Bool.noConfusion hbit
  simp [Healthy, hne]

/-- Witness for C3: register a check named "db" on a fresh doctor. -/
theorem C3_fresh_unhealthy_witness :
    (NewDoctor.items.length < capacityBound) ∧
    (∃ d', Investigate NewDoctor ⟨"db", 1, 1⟩ = .ok d' ∧
      mapLookup "db" d'.items =
        some { check := ⟨"db", 1, 1⟩, healthy := false, msg := "[n/a]", pos := 0 } ∧
      Nat.testBit d'.status 0 = true ∧
      Healthy d' = false) :=
  ⟨by decide, C3_fresh_unhealthy NewDoctor ⟨"db", 1, 1⟩ (by decide)⟩

lemma length_pos_iff_ne_empty {s : String} : 0 < s.length ↔ s ≠ "" := by
  cases s with
  | mk data =>
    constructor
    · intro h he
      rw [he] at h
      exact Nat.lt_irrefl 0 h
    · intro h
      rcases Nat.eq_zero_or_pos (String.mk data).length with h0 | hpos
      · have hd : data = [] := List.length_eq_zero.mp h0
        exact absurd (by rw [hd]) h
      · exact hpos

/-- Claim C7: `failing()` contains exactly the pairs `(name, message)` of
registry entries whose stored message is non-empty; a single check named
"n" with message "boom" yields exactly the mapping `[("n", "boom")]`. -/
theorem C7_failing_exact (items : List (String × HealthCheckStatus)) (name m : String) :
    ((name, m) ∈ failing items ↔
       ∃ hc, (name, hc) ∈ items ∧ hc.msg = m ∧ m ≠ "") ∧
    failing [("n", ⟨⟨"n", 1, 1⟩, false, "boom", 0⟩)] = [("n", "boom")] := by
  constructor
  · constructor
    · intro h
      simp only [failing, List.mem_map, List.mem_filter] at h
      obtain ⟨p, ⟨hpmem, hplen⟩, hpeq⟩ := h
      have h1 : p.1 = name := congrArg Prod.fst hpeq
      have h2 : p.2.msg = m := congrArg Prod.snd hpeq
      refine ⟨p.2, ?_, ?_, ?_⟩
      · rw [← h1]
        exact hpmem
      · exact h2
      · rw [← h2]
        exact length_pos_iff_ne_empty.mp (of_decide_eq_true hplen)
    · intro h
      obtain ⟨hc, hmem, hmsg, hne⟩ := h
      simp only [failing, List.mem_map, List.mem_filter]
      refine ⟨(name, hc), ⟨hmem, ?_⟩, by rw [hmsg]⟩
      exact decide_eq_true (length_pos_iff_ne_empty.mpr (hmsg ▸ hne))
  · rfl

lemma mapInsert_not_mem (k : String) (v : HealthCheckStatus) :
    ∀ l, mapLookup k l = none → mapInsert k v l = l ++ [(k, v)]
  | [] => fun _ => rfl
  | (k', v') :: rest => fun h => by
    by_cases hk : k' = k
    · rw [mapLookup, if_pos hk] at h
      exact Option.noConfusion h
    · rw [mapLookup, if_neg hk] at h
      simp [mapInsert, hk, mapInsert_not_mem k v rest h]

lemma mapLookup_append_none (k k' : String) (v' : HealthCheckStatus) :
    ∀ l, mapLookup k l = none → k' ≠ k → mapLookup k (l ++ [(k', v')]) = none
  | [] => fun _ hne => by simp [mapLookup, hne]
  | (a, b) :: rest => fun h hne => by
    by_cases hk : a = k
    · rw [mapLookup, if_pos hk] at h
      exact Option.noConfusion h
    · rw [mapLookup, if_neg hk] at h
      simpa [mapLookup, hk] using mapLookup_append_none k k' v' rest h hne

/-- Invariant behind C8: starting from any registry, registering a list of
fresh distinct-named checks succeeds and appends their names in call order,
with positions `len, len+1, ...` assigned as the registration count at the
time of each call. -/
lemma investigateAll_ok :
    ∀ (cs : List Check) (d : DoctorState),
      (∀ c ∈ cs, mapLookup c.Name d.items = none) →
      (cs.map Check.Name).Nodup →
      d.items.length + cs.length ≤ capacityBound →
      ∃ d', investigateAll d cs = .ok d' ∧
        d'.items.map Prod.fst = d.items.map Prod.fst ++ cs.map Check.Name ∧
        d'.items.map (fun p => p.2.pos) =
          d.items.map (fun p => p.2.pos) ++ List.range' d.items.length cs.length
  | [], d => fun _ _ _ => ⟨d, rfl, by simp, by simp⟩
  | c :: rest, d => fun hfresh hnodup hlen => by
    have hlen' : d.items.length + (rest.length + 1) ≤ capacityBound := by simpa using hlen
    have hpos : d.items.length < capacityBound := by omega
    have hfreshc : mapLookup c.Name d.items = none := hfresh c (List.mem_cons_self c rest)
    have hitems : mapInsert c.Name ⟨c, false, "[n/a]", d.items.length⟩ d.items =
        d.items ++ [(c.Name, ⟨c, false, "[n/a]", d.items.length⟩)] :=
      mapInsert_not_mem c.Name _ d.items hfreshc
    have hInv : Investigate d c = .ok
        { items := d.items ++ [(c.Name, ⟨c, false, "[n/a]", d.items.length⟩)],
          status := update d.status d.items.length false,
          runners := d.runners ++ [(c.Name, d.items.length)] } := by
      simp [Investigate, hpos, hitems]
    have hni : c.Name ∉ rest.map Check.Name := by
      have := hnodup
      simp only [List.map_cons, List.nodup_cons] at this
      exact this.1
    obtain ⟨d', hrun, hkeys, hposs⟩ := investigateAll_ok rest
      { items := d.items ++ [(c.Name, ⟨c, false, "[n/a]", d.items.length⟩)],
        status := update d.status d.items.length false,
        runners := d.runners ++ [(c.Name, d.items.length)] }
      (by
        intro c' hc'
        refine mapLookup_append_none c'.Name c.Name _ d.items
          (hfresh c' (List.mem_cons_of_mem c hc')) ?_
        intro he
        exact hni (he ▸ List.mem_map_of_mem Check.Name hc'))
      (by
        have := hnodup
        simp only [List.map_cons, List.nodup_cons] at this
        exact this.2)
      (by simp; omega)
    refine ⟨d', ?_, ?_, ?_⟩
    · simp only [investigateAll, hInv]
      exact hrun
    · rw [hkeys]
      simp
    · rw [hposs]
      simp [List.range'_succ]

/-- Claim C8: registering N distinct-named checks from an empty doctor
assigns bit positions 0..N-1 in strict call order (each equal to the
registration count at the time of the call), all distinct, with a registry
of size N. -/
theorem C8_positions_dense (cs : List Check)
    (hnodup : (cs.map Check.Name).Nodup) (hlen : cs.length ≤ capacityBound) :
    ∃ d, investigateAll NewDoctor cs = .ok d ∧
      d.items.length = cs.length ∧
      d.items.map Prod.fst = cs.map Check.Name ∧
      d.items.map (fun p => p.2.pos) = List.range cs.length ∧
      (d.items.map (fun p => p.2.pos)).Nodup := by
  obtain ⟨d, hrun, hkeys, hposs⟩ := investigateAll_ok cs NewDoctor
    (fun _ _ => rfl) hnodup (by simpa [NewDoctor] using hlen)
  have hkeys' : d.items.map Prod.fst = cs.map Check.Name := by
    simpa [NewDoctor] using hkeys
  have hposs' : d.items.map (fun p => p.2.pos) = List.range cs.length := by
    rw [List.range_eq_range']
    simpa [NewDoctor] using hposs
  refine ⟨d, hrun, ?_, hkeys', hposs', ?_⟩
  · have hl := congrArg List.length hkeys'
    simpa using hl
  · rw [hposs', List.range_eq_range']
    exact List.nodup_range' 0 cs.length

/-- Witness for C8 at the concrete batch of two distinct-named checks. -/
theorem C8_positions_dense_witness :
    (((mkChecks 2).map Check.Name).Nodup ∧ (mkChecks 2).length ≤ capacityBound) ∧
    (∃ d, investigateAll NewDoctor (mkChecks 2) = .ok d ∧
      d.items.length = (mkChecks 2).length ∧
      d.items.map Prod.fst = (mkChecks 2).map Check.Name ∧
      d.items.map (fun p => p.2.pos) = List.range (mkChecks 2).length ∧
      (d.items.map (fun p => p.2.pos)).Nodup) :=
  ⟨⟨by decide, by decide⟩, C8_positions_dense (mkChecks 2) (by decide) (by decide)⟩

/-- Claim C1 is violated by the code itself: 63 distinct-named registrations
succeed and the 64th fails (so the enforcement constant is 63, from
`pos < 63`), yet the error message returned by that failing call states a
threshold of 64 — the enforcement check and the message disagree. -/
theorem C1_capacity_mismatch :
    (∃ d, investigateAll NewDoctor (mkChecks capacityBound) = .ok d ∧
        d.items.length = capacityBound ∧
        Investigate d ⟨"extra", 1, 1⟩ = .error capacityErrMsg) ∧
    capacityBound = 63 ∧
    capacityErrMsg = "health-check treshold (64) exceeded" := by
  refine ⟨?_, rfl, rfl⟩
  obtain ⟨d, hrun, hkeys, hposs⟩ := investigateAll_ok (mkChecks capacityBound) NewDoctor
    (fun _ _ => rfl) (by decide) (by decide)
  have hlen : d.items.length = capacityBound := by
    have hl := congrArg List.length hkeys
    simpa [NewDoctor, mkChecks] using hl
  refine ⟨d, hrun, hlen, ?_⟩
  simp [Investigate, hlen, capacityBound]

lemma mapInsert_length_mem (k : String) (v : HealthCheckStatus) :
    ∀ l, (mapLookup k l).isSome = true → (mapInsert k v l).length = l.length
  | [] => fun h => by simp [mapLookup] at h
  | (a, b) :: rest => fun h => by
    by_cases hk : a = k
    · simp [mapInsert, hk]
    · rw [mapLookup, if_neg hk] at h
      simp [mapInsert, hk, mapInsert_length_mem k v rest h]

/-- Claim C10: re-registering an existing name overwrites the map entry
without growing the registry, and its runner gets position = size; the next
distinct-named registration is assigned that same position, so two live
runners write the same aggregator bit. -/
theorem C10_duplicate_collision (d : DoctorState) (c cOther : Check)
    (hdup : (mapLookup c.Name d.items).isSome = true)
    (hcap : d.items.length < capacityBound)
    (hne : cOther.Name ≠ c.Name) :
    ∃ d1 d2, Investigate d c = .ok d1 ∧ Investigate d1 cOther = .ok d2 ∧
      d1.items.length = d.items.length ∧
      (c.Name, d.items.length) ∈ d2.runners ∧
      (cOther.Name, d.items.length) ∈ d2.runners ∧
      (c.Name, d.items.length) ≠ (cOther.Name, d.items.length) := by
  have hInv1 : Investigate d c = .ok
      { items := mapInsert c.Name ⟨c, false, "[n/a]", d.items.length⟩ d.items,
        status := update d.status d.items.length false,
        runners := d.runners ++ [(c.Name, d.items.length)] } := by
    simp [Investigate, hcap]
  have hlen1 : (mapInsert c.Name ⟨c, false, "[n/a]", d.items.length⟩ d.items).length =
      d.items.length :=
    mapInsert_length_mem c.Name _ d.items hdup
  have hcap1 : (mapInsert c.Name ⟨c, false, "[n/a]", d.items.length⟩ d.items).length <
      capacityBound := by rw [hlen1]; exact hcap
  have hInv2 : Investigate
      { items := mapInsert c.Name ⟨c, false, "[n/a]", d.items.length⟩ d.items,
        status := update d.status d.items.length false,
        runners := d.runners ++ [(c.Name, d.items.length)] } cOther = .ok
      { items := mapInsert cOther.Name ⟨cOther, false, "[n/a]", d.items.length⟩
          (mapInsert c.Name ⟨c, false, "[n/a]", d.items.length⟩ d.items),
        status := update (update d.status d.items.length false) d.items.length false,
        runners := (d.runners ++ [(c.Name, d.items.length)]) ++
          [(cOther.Name, d.items.length)] } := by
    simp [Investigate, hcap1, hlen1, hcap]
  refine ⟨_, _, hInv1, hInv2, hlen1, ?_, ?_, ?_⟩
  · exact List.mem_append_left _ (List.mem_append_right _ (List.mem_singleton.mpr rfl))
  · exact List.mem_append_right _ (List.mem_singleton.mpr rfl)
  · intro h
    exact hne (congrArg Prod.fst h).symm

/-- The doctor state right after registering a single check named "a". -/
def dEx : DoctorState :=
  { items := [("a", ⟨⟨"a", 1, 1⟩, false, "[n/a]", 0⟩)],
    status := 1,
    runners := [("a", 0)] }

/-- Witness for C10: re-register "a" on `dEx`, then register "b"; both the
duplicate "a" runner and the "b" runner are spawned at position 1. -/
theorem C10_duplicate_collision_witness :
    ((mapLookup "a" dEx.items).isSome = true ∧ dEx.items.length < capacityBound ∧
       ("b" : String) ≠ "a") ∧
    (∃ d1 d2, Investigate dEx ⟨"a", 2, 2⟩ = .ok d1 ∧ Investigate d1 ⟨"b", 1, 1⟩ = .ok d2 ∧
      d1.items.length = dEx.items.length ∧
      (("a" : String), dEx.items.length) ∈ d2.runners ∧
      (("b" : String), dEx.items.length) ∈ d2.runners ∧
      ((("a" : String), dEx.items.length)) ≠ ((("b" : String), dEx.items.length))) :=
  ⟨⟨by decide, by decide, by decide⟩,
   C10_duplicate_collision dEx ⟨"a", 2, 2⟩ ⟨"b", 1, 1⟩ (by decide) (by decide) (by decide)⟩
